import Mathlib

/-!
Verification of the slide-generation pipeline of this repository, centred on
the remote-media fetch workflow of `scripts/generate_from_json.js`
(`src/unnamed/part_002`).  JavaScript functions are shallowly embedded as
executable Lean definitions; network and browser effects are abstracted by
explicit environments, and the file written at the caller-supplied output
path is threaded as explicit state.  Bytes are modelled as `List Nat`;
UTF-8 decoding of downloaded bytes is modelled bytewise (faithful on the
ASCII range, which is all the markers checked by the source use), and
`toLowerCase` is modelled on the ASCII range as in `Char.toLower`.
-/

set_option maxRecDepth 100000

namespace SlideGen

/-! ## String machinery: models of the JS string and regex primitives -/
/-- Model of `String.prototype.trim`: strip whitespace from both ends. -/
def trimL (l : List Char) : List Char :=
  ((l.dropWhile Char.isWhitespace).reverse.dropWhile Char.isWhitespace).reverse

def jsTrim (s : String) : String := String.mk (trimL s.data)

/-- `leadMatch pat l` is true iff `pat` is a leading segment of `l`
(the model of `String.prototype.startsWith` and of anchoring a regex). -/
def leadMatch : List Char → List Char → Bool
  | [], _ => true
  | _ :: _, [] => false
  | a :: as, b :: bs => decide (a = b) && leadMatch as bs

/-- `hasSubstr pat l`: `pat` occurs somewhere in `l`
(the model of `String.prototype.includes`). -/
def hasSubstr (pat : List Char) : List Char → Bool
  | [] => pat.isEmpty
  | c :: rest => leadMatch pat (c :: rest) || hasSubstr pat rest

/-- Character class `[a-zA-Z0-9_-]` used by the identifier and token
regexes of the source. -/
def isIdChar (c : Char) : Bool := c.isAlphanum || decide (c = '_') || decide (c = '-')

/-- Model of `url.match(/MARKER([a-zA-Z0-9_-]+)/)`: scan left to right for the
first position where `m` matches followed by at least one identifier
character, and return the maximal identifier-character run (the capture
group).  When the marker matches but no identifier character follows, the
regex engine moves on to the next position, as does this function. -/
def scanToken (m : List Char) : List Char → Option (List Char)
  | [] => none
  | c :: rest =>
    if leadMatch m (c :: rest) then
      if ((c :: rest).drop m.length).takeWhile isIdChar = [] then scanToken m rest
      else some (((c :: rest).drop m.length).takeWhile isIdChar)
    else scanToken m rest

/-- `mismatchWithin m w`: matching `m` against `w ++ anything` is bound to
fail already inside `w` (a mismatching character occurs before `w` runs
out).  Decidable helper used to evaluate scans over a concrete leading
segment followed by symbolic data. -/
def mismatchWithin : List Char → List Char → Bool
  | [], _ => false
  | _ :: _, [] => false
  | a :: as, b :: bs => if a = b then mismatchWithin as bs else true

/-- Every suffix of `l` mismatches `m` within `l` itself. -/
def allSuffixMismatch (m : List Char) : List Char → Bool
  | [] => true
  | c :: rest => mismatchWithin m (c :: rest) && allSuffixMismatch m rest

/-- Split `l` at the first occurrence of `m` (model of locating a fixed
separator, as `new URL` does with `"://"`). -/
def splitMarker (m : List Char) : List Char → Option (List Char × List Char)
  | [] => none
  | c :: rest =>
    if leadMatch m (c :: rest) then some ([], (c :: rest).drop m.length)
    else
      match splitMarker m rest with
      | some p => some (c :: p.1, p.2)
      | none => none

/-- Bytewise model of decoding a byte buffer with `toString('utf-8')`
(exact on the ASCII bytes the source's markers consist of). -/
def decodeBytes (bytes : List Nat) : List Char := bytes.map (fun n => Char.ofNat n)

/-- ASCII model of `String.prototype.toLowerCase`. -/
def toLowerL (l : List Char) : List Char := l.map Char.toLower

/-- `bytesAt b i vals`: the bytes of `b` starting at offset `i` are exactly
`vals` (model of a conjunction of `buffer[i] === v` checks). -/
def bytesAt (b : List Nat) (i : Nat) (vals : List Nat) : Bool :=
  decide ((b.drop i).take vals.length = vals)

/-! ## `extractGoogleDriveId` (part_002 lines 31-52)

Pattern 1 is the regex search for `/file/d/<ID>`; pattern 2 parses the URL
and reads the `id` query parameter when the pathname contains `open`.
`parseUrl` is a minimal model of the WHATWG `new URL` constructor for the
`scheme://host/path?query` shapes this program handles; the constructor
throwing on other inputs corresponds to `parseUrl` returning `none`.
Percent-decoding of query values is omitted: the service identifiers at
issue consist of `[a-zA-Z0-9_-]` and contain no escapes. -/
structure ParsedUrl where
  pathname : List Char
  query : List Char

def hostStop (c : Char) : Bool := decide (c = '/') || decide (c = '?') || decide (c = '#')

def pathStop (c : Char) : Bool := decide (c = '?') || decide (c = '#')

def queryOf : List Char → List Char
  | '?' :: rest => rest.takeWhile (fun c => !decide (c = '#'))
  | _ => []

def parseUrl (url : String) : Option ParsedUrl :=
  match splitMarker "://".data url.data with
  | none => none
  | some pr =>
    let rest := pr.2
    let host := rest.takeWhile (fun c => !hostStop c)
    let afterHost := rest.dropWhile (fun c => !hostStop c)
    if host = [] then none
    else
      match afterHost with
      | '/' :: _ =>
        some ⟨afterHost.takeWhile (fun c => !pathStop c),
              queryOf (afterHost.dropWhile (fun c => !pathStop c))⟩
      | _ => some ⟨['/'], queryOf afterHost⟩

/-- Split a query string on `&` (model of `URLSearchParams` segmenting). -/
def splitSegs (l : List Char) : List (List Char) :=
  l.foldr
    (fun c acc =>
      if c = '&' then [] :: acc
      else
        match acc with
        | [] => [[c]]
        | s :: rest => (c :: s) :: rest)
    [[]]

def segKey (seg : List Char) : List Char := seg.takeWhile (fun c => !decide (c = '='))

def segVal (seg : List Char) : List Char :=
  (seg.dropWhile (fun c => !decide (c = '='))).drop 1

/-- First segment whose key part matches; the value is what follows the
first `=` (empty when there is none). -/
def lookupSeg (key : List Char) : List (List Char) → Option (List Char)
  | [] => none
  | seg :: rest => if segKey seg = key then some (segVal seg) else lookupSeg key rest

/-- Model of `urlObj.searchParams.get(key)`. -/
def getParam (key : List Char) (q : List Char) : Option (List Char) :=
  lookupSeg key (splitSegs q)

def extractGoogleDriveId (url : String) : Option String :=
  if url = "" then none
  else
    match scanToken "/file/d/".data url.data with
    | some idc => some (String.mk idc)
    | none =>
      match parseUrl url with
      | none => none
      | some u =>
        if hasSubstr "open".data u.pathname then
          match getParam "id".data u.query with
          | some v => if v = [] then none else some (String.mk v)
          | none => none
        else none

/-! ## `validateFileType` (part_002 lines 66-117)

The source stats the file, rejects files under 4 bytes, reads the file
contents (the `start`/`end` options passed to `fs.promises.readFile` are
not supported by Node and are ignored, so the whole file is read) and
checks magic bytes.  Here the file contents are the `bytes` argument. -/
def validateFileType (bytes : List Nat) (expectedType : String) : Bool :=
  if bytes.length < 4 then false
  else
    if expectedType = "video" then
      -- PNG false positive check (89 50 4E 47)
      if bytesAt bytes 0 [0x89, 0x50, 0x4E, 0x47] then false
      else
        -- HTML false positive check on the decoded, lowercased text prefix
        if hasSubstr "<!doctype".data (toLowerL (decodeBytes (bytes.take 100)))
           || hasSubstr "<html".data (toLowerL (decodeBytes (bytes.take 100))) then false
        else
          -- MP4/MOV: bytes 4-7 must be the ftyp box marker
          if decide (8 ≤ bytes.length) && bytesAt bytes 4 [0x66, 0x74, 0x79, 0x70] then true
          else false
    else
      if expectedType = "image" then
        -- PNG (89 50 4E 47), JPEG (FF D8 FF) or GIF (47 49 46 38)
        if bytesAt bytes 0 [0x89, 0x50, 0x4E, 0x47] || bytesAt bytes 0 [0xFF, 0xD8, 0xFF]
           || bytesAt bytes 0 [0x47, 0x49, 0x46, 0x38] then true
        else false
      else true

/-! ## `escapeHtml` (part_002 lines 1567-1575; identical copy in part_000)

`String(text).replace(/X/g, r)` with a single-character pattern replaces
every occurrence of that character, which is exactly `jsReplaceAllChar`.
The falsy guard `if (!text) return ''` is modelled on `Option String`
(`none` standing for `null`/`undefined`, and the empty string for itself;
other falsy values do not occur at the string call sites). -/
def jsReplaceAllChar (c : Char) (r : List Char) (l : List Char) : List Char :=
  l.flatMap (fun x => if x = c then r else [x])

def escapeHtmlL (l : List Char) : List Char :=
  jsReplaceAllChar '\'' "&#039;".data
    (jsReplaceAllChar '"' "&quot;".data
      (jsReplaceAllChar '>' "&gt;".data
        (jsReplaceAllChar '<' "&lt;".data
          (jsReplaceAllChar '&' "&amp;".data l))))

def escapeHtml (t : Option String) : String :=
  match t with
  | none => ""
  | some s => if s = "" then "" else String.mk (escapeHtmlL s.data)

/-! ## The download subsystem (part_002 lines 119-708)

Network and browser effects are abstracted by an environment `Env`:

* `direct url follow` is the outcome of `downloadFileDirect(url, outputPath,
  follow)` (lines 121-173): on success the response body is streamed into
  the file at `outputPath`; `httpErr` covers a non-200 status, too many
  redirects, a request error or a timeout, all of which reject before the
  file stream is opened; `streamErr` is a write-stream error, whose handler
  unlinks the partial file.
* `fetchR url` is `fetchResponse(url)` (lines 176-217), which buffers the
  body in memory and touches no file; `none` is any rejection.
* `pw fileId` abstracts the Playwright page interaction of `downloadFile`
  (lines 350-472): `downloadEvt b` is a fired download event whose bytes
  are saved to `outputPath`; `videoBody b dl` is the video-only
  `googleusercontent` direct-response path (body `b`), with `dl` the
  download event (if any) obtained afterwards by clicking the confirmation
  selectors; `noDownload` is every path producing no download.
* `pwGeneric url` abstracts `page.goto(url)` plus `response.body()` used in
  the generic branches (lines 486-501 and 686-700).
* `pwImgDownload` and `pwImgResp` likewise abstract the Playwright fallback
  of `downloadImage` (lines 571-676).

The single file at the caller-supplied `outputPath` is the `fs` component
of `GDState` (`none` = no file present), and every URL handed to the
network or to a browser navigation is appended to `trace`. -/
inductive DirectResult
  | ok (bytes : List Nat)
  | httpErr
  | streamErr
deriving DecidableEq

structure HttpResp where
  contentType : String
  body : List Nat
deriving DecidableEq

inductive PwOutcome
  | noDownload
  | downloadEvt (bytes : List Nat)
  | videoBody (bytes : List Nat) (thenDownload : Option (List Nat))
deriving DecidableEq

structure Env where
  direct : String → Bool → DirectResult
  fetchR : String → Option HttpResp
  pw : String → PwOutcome
  pwGeneric : String → Option (List Nat)
  pwImgDownload : String → Option (List Nat)
  pwImgResp : String → Option HttpResp

structure GDState where
  fs : Option (List Nat)
  trace : List String
deriving DecidableEq

def initSt : GDState := ⟨none, []⟩

/-- One call of `downloadFileDirect`, updating the output file. -/
def requestDirect (env : Env) (url : String) (follow : Bool) (st : GDState) :
    DirectResult × GDState :=
  match env.direct url follow with
  | DirectResult.ok b => (DirectResult.ok b, ⟨some b, st.trace ++ [url]⟩)
  | DirectResult.httpErr => (DirectResult.httpErr, ⟨st.fs, st.trace ++ [url]⟩)
  | DirectResult.streamErr => (DirectResult.streamErr, ⟨none, st.trace ++ [url]⟩)

def kindOf (isVideo : Bool) : String := if isVideo then "video" else "image"

/-- Google Drive URL templates (lines 55-63, 221, 258, 277, 337). -/
def gdDownloadUrl (fileId : String) : String :=
  "https://drive.google.com/uc?export=download&id=" ++ fileId

def gdViewUrl (fileId : String) : String :=
  "https://drive.google.com/uc?export=view&id=" ++ fileId

def gdTokenUrl (fileId tok : String) : String := gdDownloadUrl fileId ++ "&confirm=" ++ tok

def gdConfirmTUrl (fileId : String) : String := gdDownloadUrl fileId ++ "&confirm=t"

/-- The try-block shape repeated at lines 225-238, 259-270 and 278-290 of
`downloadGoogleDriveFile`: direct download with redirects, require more
than 1000 bytes, validate by magic bytes, and on a failed validation
delete the file; any error is swallowed.  Returns whether the attempt
succeeded. -/
def gdAttempt (env : Env) (url : String) (kind : String) (st : GDState) : Bool × GDState :=
  match requestDirect env url true st with
  | (DirectResult.ok b, st1) =>
    if 1000 < b.length then
      if validateFileType b kind then (true, st1)
      else (false, ⟨none, st1.trace⟩)
    else (false, st1)
  | (_, st1) => (false, st1)

/-- Success predicate of `gdAttempt`, independent of the incoming state. -/
def gdOk (env : Env) (url : String) (kind : String) : Bool :=
  match env.direct url true with
  | DirectResult.ok b => decide (1000 < b.length) && validateFileType b kind
  | _ => false

/-- Detection of an HTML (virus-scan interstitial) response, line 248. -/
def isHtmlResp (resp : HttpResp) : Bool :=
  hasSubstr "text/html".data (toLowerL resp.contentType.data)
  || hasSubstr "<!doctype".data (toLowerL (decodeBytes (resp.body.take 100)))

/-- `htmlContent.match(/confirm=([a-zA-Z0-9_-]+)/)`, line 253. -/
def confirmTokenOf (body : List Nat) : Option String :=
  (scanToken "confirm=".data (decodeBytes body)).map (fun l => String.mk l)

/-- The `confirm=t` fallback attempt, lines 276-293. -/
def gdConfirmT (env : Env) (fileId : String) (kind : String) (st : GDState) :
    Option Unit × GDState :=
  match gdAttempt env (gdConfirmTUrl fileId) kind st with
  | (true, st1) => (some (), st1)
  | (false, st1) => (none, st1)

/-- `downloadGoogleDriveFile(fileId, outputPath, isVideo)`, lines 220-315.
`some ()` models returning `outputPath`; `none` models returning `null`. -/
def downloadGoogleDriveFile (env : Env) (fileId : String) (isVideo : Bool) (st : GDState) :
    Option Unit × GDState :=
  -- Step 1: direct download with redirects, validate
  match gdAttempt env (gdDownloadUrl fileId) (kindOf isVideo) st with
  | (true, st1) => (some (), st1)
  | (false, st1) =>
    -- Step 2: fetch the response to look for an HTML virus-scan warning
    let st2 : GDState := ⟨st1.fs, st1.trace ++ [gdDownloadUrl fileId]⟩
    match env.fetchR (gdDownloadUrl fileId) with
    | none => (none, st2)
    | some resp =>
      if isHtmlResp resp then
        match confirmTokenOf resp.body with
        | some tok =>
          -- retry with the extracted confirmation token
          match gdAttempt env (gdTokenUrl fileId tok) (kindOf isVideo) st2 with
          | (true, st3) => (some (), st3)
          | (false, st3) => gdConfirmT env fileId (kindOf isVideo) st3
        | none => gdConfirmT env fileId (kindOf isVideo) st2
      else
        -- not HTML: save the buffered body directly (lines 294-306)
        if 1000 < resp.body.length then
          if validateFileType resp.body (kindOf isVideo) then (some (), ⟨some resp.body, st2.trace⟩)
          else (none, ⟨none, st2.trace⟩)
        else (none, st2)

/-- Handling of a fired Playwright download: save, require a nonempty
file, validate, delete on failed validation (lines 456-469). -/
def pwFinish (dl : Option (List Nat)) (kind : String) (st : GDState) :
    Option Unit × GDState :=
  match dl with
  | some b =>
    if 0 < b.length then
      if validateFileType b kind then (some (), ⟨some b, st.trace⟩)
      else (none, ⟨none, st.trace⟩)
    else (none, ⟨some b, st.trace⟩)
  | none => (none, st)

/-- Playwright fallback of `downloadFile` (lines 350-472).  The page is
navigated to the download URL; the video-only `googleusercontent` branch
(lines 381-404) may write the response body before falling back to the
selector-clicking download. -/
def gdPlaywright (env : Env) (fileId : String) (isVideo : Bool) (st : GDState) :
    Option Unit × GDState :=
  let st1 : GDState := ⟨st.fs, st.trace ++ [gdDownloadUrl fileId]⟩
  match env.pw fileId with
  | PwOutcome.noDownload => (none, st1)
  | PwOutcome.downloadEvt b => pwFinish (some b) (kindOf isVideo) st1
  | PwOutcome.videoBody b dl =>
    if isVideo && decide (1000 < b.length) then
      -- body written to outputPath, then stat and magic-byte validation
      if validateFileType b (kindOf isVideo) then (some (), ⟨some b, st1.trace⟩)
      else pwFinish dl (kindOf isVideo) ⟨none, st1.trace⟩
    else pwFinish dl (kindOf isVideo) st1

/-- `downloadFile(url, outputPath, browser, context, isVideo)`,
lines 319-510. -/
def downloadFile (env : Env) (url : String) (isVideo : Bool) (st : GDState) :
    Option Unit × GDState :=
  if url = "" ∨ jsTrim url = "" then (none, st)
  else
    match extractGoogleDriveId url with
    | some fileId =>
      match downloadGoogleDriveFile env fileId isVideo st with
      | (some _, st1) => (some (), st1)
      | (none, st1) =>
        if isVideo = false then
          -- Step 2 (images only): the export=view URL; a download of at
          -- most 1000 bytes is unlinked (lines 334-347).  Note the
          -- successful case performs no magic-byte validation.
          match requestDirect env (gdViewUrl fileId) true st1 with
          | (DirectResult.ok b, st2) =>
            if 1000 < b.length then (some (), st2)
            else gdPlaywright env fileId isVideo ⟨none, st2.trace⟩
          | (_, st2) => gdPlaywright env fileId isVideo st2
        else gdPlaywright env fileId isVideo st1
    | none =>
      -- Generic URL (lines 473-502): direct download, validate; a file
      -- failing validation is not deleted.
      match requestDirect env url true st with
      | (DirectResult.ok b, st1) =>
        if 0 < b.length then
          if validateFileType b (kindOf isVideo) then (some (), st1) else (none, st1)
        else (none, st1)
      | (_, st1) =>
        let st2 : GDState := ⟨st1.fs, st1.trace ++ [url]⟩
        match env.pwGeneric url with
        | some b =>
          if 0 < b.length then
            if validateFileType b (kindOf isVideo) then (some (), ⟨some b, st2.trace⟩)
            else (none, ⟨some b, st2.trace⟩)
          else (none, st2)
        | none => (none, st2)

/-- Final Playwright fallback of `downloadImage`: navigate once more and
save the body if the declared content type looks like an image
(lines 653-673).  No magic-byte validation anywhere. -/
def imgPwFallback (env : Env) (fileId : String) (st : GDState) : Option Unit × GDState :=
  let st1 : GDState := ⟨st.fs, st.trace ++ [gdDownloadUrl fileId]⟩
  match env.pwImgResp fileId with
  | some resp =>
    if leadMatch "image/".data resp.contentType.data
       || resp.contentType = "application/octet-stream" || resp.contentType = "" then
      if 0 < resp.body.length then (some (), ⟨some resp.body, st1.trace⟩)
      else (none, st1)
    else (none, st1)
  | none => (none, st1)

/-- Playwright fallback of `downloadImage` (lines 570-676): wait for a
download event, save it, accept any nonempty file. -/
def imgPlaywright (env : Env) (fileId : String) (st : GDState) : Option Unit × GDState :=
  let st1 : GDState := ⟨st.fs, st.trace ++ [gdDownloadUrl fileId]⟩
  match env.pwImgDownload fileId with
  | some b =>
    if 0 < b.length then (some (), ⟨some b, st1.trace⟩)
    else imgPwFallback env fileId ⟨some b, st1.trace⟩
  | none => imgPwFallback env fileId st1

/-- Step 3 of `downloadImage`: the download URL with redirects
(lines 556-564). -/
def imgStep3 (env : Env) (fileId : String) (st : GDState) : Option Unit × GDState :=
  match requestDirect env (gdDownloadUrl fileId) true st with
  | (DirectResult.ok b, st1) =>
    if 1000 < b.length then (some (), st1) else imgPlaywright env fileId st1
  | (_, st1) => imgPlaywright env fileId st1

/-- Step 2 of `downloadImage`: the export=view URL (lines 544-554). -/
def imgStep2 (env : Env) (fileId : String) (st : GDState) : Option Unit × GDState :=
  match requestDirect env (gdViewUrl fileId) true st with
  | (DirectResult.ok b, st1) =>
    if 1000 < b.length then (some (), st1) else imgStep3 env fileId st1
  | (_, st1) => imgStep3 env fileId st1

/-- `downloadImage(url, outputPath, browser, context)`, lines 519-708.
None of its success paths calls `validateFileType`; every check is a size
threshold only. -/
def downloadImage (env : Env) (url : String) (st : GDState) : Option Unit × GDState :=
  if url = "" ∨ jsTrim url = "" then (none, st)
  else
    match extractGoogleDriveId url with
    | some fileId =>
      -- Step 1: direct download URL, redirects NOT followed (line 534)
      match requestDirect env (gdDownloadUrl fileId) false st with
      | (DirectResult.ok b, st1) =>
        if 1000 < b.length then (some (), st1) else imgStep2 env fileId st1
      | (_, st1) => imgStep2 env fileId st1
    | none =>
      -- Generic URL (lines 677-700)
      match requestDirect env url true st with
      | (DirectResult.ok b, st1) =>
        if 0 < b.length then (some (), st1) else (none, st1)
      | (_, st1) =>
        let st2 : GDState := ⟨st1.fs, st1.trace ++ [url]⟩
        match env.pwGeneric url with
        | some b =>
          if 0 < b.length then (some (), ⟨some b, st2.trace⟩) else (none, st2)
        | none => (none, st2)

/-- The invariant preserved by every failed attempt: the output path holds
no file, or only a small (at most 1000 byte) one. -/
def smallFile (o : Option (List Nat)) : Prop :=
  o = none ∨ ∃ b, o = some b ∧ b.length ≤ 1000

/-- Witness for `downloadGoogleDriveFile_success_validated`: an
environment whose first direct download already yields a large PNG. -/
def pngBig : List Nat := 0x89 :: 0x50 :: 0x4E :: 0x47 :: List.replicate 1000 0

def envHappy : Env :=
  { direct := fun _ _ => DirectResult.ok pngBig
    fetchR := fun _ => none
    pw := fun _ => PwOutcome.noDownload
    pwGeneric := fun _ => none
    pwImgDownload := fun _ => none
    pwImgResp := fun _ => none }

/-- Witness for `downloadGoogleDriveFile_fail_no_invalid_file` in an
environment where everything fails. -/
def envNull : Env :=
  { direct := fun _ _ => DirectResult.httpErr
    fetchR := fun _ => none
    pw := fun _ => PwOutcome.noDownload
    pwGeneric := fun _ => none
    pwImgDownload := fun _ => none
    pwImgResp := fun _ => none }

/-- Counterexample to claim C2 as stated: a URL with no recognized
service identifier whose direct fetch writes more than 0 bytes that fail
video validation; `downloadFile` returns the failure outcome yet the
invalid file is left at the output path. -/
def junkHtml : List Nat := List.replicate 1001 9

def envC2 : Env :=
  { direct := fun u _ =>
      if u = "https://example.com/media/clip.bin" then DirectResult.ok junkHtml
      else DirectResult.httpErr
    fetchR := fun _ => none
    pw := fun _ => PwOutcome.noDownload
    pwGeneric := fun _ => none
    pwImgDownload := fun _ => none
    pwImgResp := fun _ => none }

/-- Witness for `downloadGoogleDriveFile_token_before_blind`: the token
attempt fails, so the trace shows the token request followed by the blind
`confirm=t` request. -/
def asciiBytes (s : String) : List Nat := s.data.map Char.toNat

def respTok : HttpResp := ⟨"text/html", asciiBytes "warning page confirm=tok42 link"⟩

def envTokFail : Env :=
  { direct := fun _ _ => DirectResult.httpErr
    fetchR := fun u => if u = gdDownloadUrl "XYZ9" then some respTok else none
    pw := fun _ => PwOutcome.noDownload
    pwGeneric := fun _ => none
    pwImgDownload := fun _ => none
    pwImgResp := fun _ => none }

/-- Counterexample to claim C3 as stated: when the token attempt
succeeds, the blind `confirm=t` request is never issued — the ladder
stops at the first success, so the blind retry is not attempted
"regardless of whether the token attempt succeeded". -/
def envC3 : Env :=
  { direct := fun u _ =>
      if u = gdTokenUrl "XYZ9" "abc123" then DirectResult.ok pngBig
      else DirectResult.httpErr
    fetchR := fun u =>
      if u = gdDownloadUrl "XYZ9" then
        some ⟨"text/html", asciiBytes "interstitial confirm=abc123 page"⟩
      else none
    pw := fun _ => PwOutcome.noDownload
    pwGeneric := fun _ => none
    pwImgDownload := fun _ => none
    pwImgResp := fun _ => none }

/-- Counterexample to claim C1 as stated: a Google Drive image fetch via
`downloadImage` whose first direct download returns 1001 bytes of junk;
the fetch reports success and returns the local path, yet the file at
that path was never signature-validated and in fact fails image
validation. -/
def junkImage : List Nat := List.replicate 1001 7

def envC1 : Env :=
  { direct := fun u follow =>
      if u = gdDownloadUrl "ABC123" ∧ follow = false then DirectResult.ok junkImage
      else DirectResult.httpErr
    fetchR := fun _ => none
    pw := fun _ => PwOutcome.noDownload
    pwGeneric := fun _ => none
    pwImgDownload := fun _ => none
    pwImgResp := fun _ => none }

/-! ## `aggregateSlides` (part_002 lines 773-881)

The slide records carry the fields this logic reads: `type`, `title` and
the bulleted `content` array (items with `text` and `level`), plus the
media URL fields read by the module-description processing
(`_video_url` / `content.video_url` and the image counterparts, here
`uVideoUrl`/`cVideoUrl`/`uImageUrl`/`cImageUrl`, with `none` standing for
an absent property).  The source also writes bookkeeping fields on
produced slides (`_splitSlide`, `_splitIndex`, `_splitTotal`,
`_mergedSections`) that nothing downstream reads; they are omitted.  The
declared constant `MIN_ITEMS_TO_MERGE = 5` is never used by the source. -/
structure ContentItem where
  text : String
  level : Nat
deriving DecidableEq

structure Slide where
  type : String
  title : String
  content : List ContentItem
  uVideoUrl : Option String
  cVideoUrl : Option String
  uImageUrl : Option String
  cImageUrl : Option String
deriving DecidableEq

/-- Model of `String.prototype.startsWith`. -/
def startsWithS (pre s : String) : Bool := leadMatch pre.data s.data

/-- The predicate of lines 785-786 and 793-795 recognising a System
Requirements bullet slide. -/
def isSysReqSlide (s : Slide) : Bool :=
  decide (s.type = "content_bullets") && decide (¬ s.title = "") &&
    (startsWithS "System Requirements:" s.title || decide (s.title = "System Requirements"))

/-- JS `\s` on the ASCII range (Unicode space classes omitted). -/
def isJsSpace (c : Char) : Bool :=
  decide (c = ' ') || decide (c = '\t') || decide (c = '\n') || decide (c = '\r')
    || decide (c = '\x0b') || decide (c = '\x0c')

/-- The anchored regex `/^power\s*:\s*standard/i`, applied to the already
lowercased text. -/
def powerStandardAnchor (l : List Char) : Bool :=
  if leadMatch "power".data l then
    match (l.drop 5).dropWhile isJsSpace with
    | ':' :: r2 => leadMatch "standard".data (r2.dropWhile isJsSpace)
    | _ => false
  else false

/-- `content.map(c => c.text || '').join(' ')`. -/
def joinTexts : List ContentItem → List Char
  | [] => []
  | [c] => c.text.data
  | c :: rest => c.text.data ++ ' ' :: joinTexts rest

def slideText (s : Slide) : List Char := toLowerL (joinTexts s.content)

/-- The trivial-content filter of lines 804-811. -/
def isNonTrivial (s : Slide) : Bool :=
  !hasSubstr "none required".data (slideText s)
    && !hasSubstr "standard source".data (slideText s)
    && !powerStandardAnchor (slideText s)

def baseTitle : String := "System Requirements"

/-- The split of lines 832-855: `numSlides = ceil(total / 15)`,
`itemsPerSlide = ceil(total / numSlides)`, slide `k` getting
`mergedContent.slice(k * itemsPerSlide, min((k + 1) * itemsPerSlide,
total))`, which equals `(merged.drop (k * ips)).take ips`. -/
def mkSplit (base : Slide) (merged : List ContentItem) : List Slide :=
  (List.range ((merged.length + 14) / 15)).map (fun k =>
    { base with
      title :=
        if 1 < (merged.length + 14) / 15 then
          "System Requirements (" ++ toString (k + 1) ++ "/"
            ++ toString ((merged.length + 14) / 15) ++ ")"
        else baseTitle
      content :=
        (merged.drop
          (k * ((merged.length + (merged.length + 14) / 15 - 1)
            / ((merged.length + 14) / 15)))).take
          ((merged.length + (merged.length + 14) / 15 - 1)
            / ((merged.length + 14) / 15)) })

/-- Processing of one maximal run of consecutive System Requirements
slides (`head :: tg`), lines 787-871: filter out trivial slides, merge
the remaining content, and split, merge or retitle according to size. -/
def processGroup (head : Slide) (tg : List Slide) : List Slide :=
  match (head :: tg).filter isNonTrivial with
  | [] => []
  | nt0 :: nts =>
    if 15 < (((nt0 :: nts).map Slide.content).flatten).length then
      mkSplit head (((nt0 :: nts).map Slide.content).flatten)
    else if nts ≠ [] ∨ (nts = [] ∧ tg ≠ []) then
      [{ head with title := baseTitle,
                   content := ((nt0 :: nts).map Slide.content).flatten }]
    else
      [{ nt0 with title := baseTitle }]

def aggregateSlides : List Slide → List Slide
  | [] => []
  | s :: rest =>
    if isSysReqSlide s then
      processGroup s (rest.takeWhile isSysReqSlide) ++
        aggregateSlides (rest.dropWhile isSysReqSlide)
    else s :: aggregateSlides rest
termination_by l => l.length
decreasing_by
  · simp only [List.length_cons]
    exact Nat.lt_succ_of_le (List.dropWhile_sublist _).length_le
  · simp only [List.length_cons]
    exact Nat.lt_succ_of_le (Nat.le_refl _)

/-- The family of System Requirements bullet slides used to state the
pass-through property: `content_bullets` type and a title beginning with
"System Requirements" (this covers the colon form, the bare form, and the
numbered part form the aggregation produces). -/
def sysReqFam (s : Slide) : Bool :=
  decide (s.type = "content_bullets") && startsWithS "System Requirements" s.title

/-- Sample data for the `aggregateSlides` witness. -/
def slideA : Slide :=
  ⟨"content_bullets", "System Requirements: Camera",
    [⟨"Camera: IP66", 0⟩, ⟨"Resolution: 1080p", 0⟩], none, none, none, none⟩

def sampleItems : List ContentItem := (List.range 16).map (fun n => ⟨"camera feature", n⟩)

/-! ## The module-description media step (part_002 lines 1625-1716)

The per-slide asset-processing block of `generatePresentation` for
`module_description` slides.  `downloadVideo`/`downloadImage` and the
re-validation of a downloaded video are abstracted by `MediaEnv`; the
function returns the list of fetch attempts made (in order) and the
entry recorded in the asset map (`none` = nothing recorded).  The
separate diagram branch (lines 1719-1723) only concerns `diagram`
slides and is outside this step. -/
/-- JS `a || b` for an optional string against a default (first operand
when truthy, i.e. a present, nonempty string). -/
def jsOr (a : Option String) (d : String) : String :=
  match a with
  | some s => if s = "" then d else s
  | none => d

/-- `slide._video_url || slide.content?.video_url || ''` (line 1626). -/
def resolveVideoUrl (s : Slide) : String := jsOr s.uVideoUrl (jsOr s.cVideoUrl "")

/-- `slide._image_url || slide.content?.image_url || ''` (line 1627). -/
def resolveImageUrl (s : Slide) : String := jsOr s.uImageUrl (jsOr s.cImageUrl "")

inductive FetchAttempt
  | video (url : String)
  | image (url : String)
deriving DecidableEq

structure AssetEntry where
  atype : String
  apath : Option String
  avideoUrl : Option String
deriving DecidableEq

structure MediaEnv where
  videoDl : String → Option String
  vValid : String → Bool
  imageDl : String → Option String

def moduleMediaStep (env : MediaEnv) (slide : Slide) (skipVideoDownload : Bool) :
    List FetchAttempt × Option AssetEntry :=
  if slide.type = "module_description" then
    if ¬ jsTrim (resolveVideoUrl slide) = "" ∧ skipVideoDownload = false then
      -- video_url has priority (lines 1634-1686)
      match env.videoDl (jsTrim (resolveVideoUrl slide)) with
      | some p =>
        if env.vValid p then
          ([FetchAttempt.video (jsTrim (resolveVideoUrl slide))],
           some ⟨"video", some p, some (jsTrim (resolveVideoUrl slide))⟩)
        else
          ([FetchAttempt.video (jsTrim (resolveVideoUrl slide))],
           some ⟨"video_failed", none, some (jsTrim (resolveVideoUrl slide))⟩)
      | none =>
        ([FetchAttempt.video (jsTrim (resolveVideoUrl slide))],
         some ⟨"video_failed", none, some (jsTrim (resolveVideoUrl slide))⟩)
    else if ¬ jsTrim (resolveVideoUrl slide) = "" ∧ skipVideoDownload = true then
      -- SKIP_VIDEO_DOWNLOAD set: link only (lines 1687-1690)
      ([], some ⟨"video_failed", none, some (jsTrim (resolveVideoUrl slide))⟩)
    else if ¬ jsTrim (resolveImageUrl slide) = "" then
      -- image_url only when video_url is empty (lines 1691-1710)
      match env.imageDl (jsTrim (resolveImageUrl slide)) with
      | some p =>
        ([FetchAttempt.image (jsTrim (resolveImageUrl slide))], some ⟨"image", some p, none⟩)
      | none =>
        -- image download failure records nothing in the asset map
        ([FetchAttempt.image (jsTrim (resolveImageUrl slide))], none)
    else
      -- both empty: leave blank for manual insertion (lines 1711-1715)
      ([], none)
  else ([], none)

/-- Witness data for `moduleMediaStep_priority`. -/
def envM : MediaEnv :=
  ⟨fun _ => some "assets/module_0.mp4", fun _ => true, fun _ => none⟩

def slideVid : Slide :=
  ⟨"module_description", "Danger Zone Detection", [],
    some "https://v.example/clip", none, none, some "https://i.example/pic"⟩

def slideBlank : Slide :=
  ⟨"module_description", "PPE Detection", [], none, none, none, none⟩

theorem scanToken_cons (m : List Char) (c : Char) (rest : List Char) :
    scanToken m (c :: rest) =
      if leadMatch m (c :: rest) then
        if ((c :: rest).drop m.length).takeWhile isIdChar = [] then scanToken m rest
        else some (((c :: rest).drop m.length).takeWhile isIdChar)
      else scanToken m rest := rfl

theorem splitMarker_cons (m : List Char) (c : Char) (rest : List Char) :
    splitMarker m (c :: rest) =
      if leadMatch m (c :: rest) then some ([], (c :: rest).drop m.length)
      else
        match splitMarker m rest with
        | some p => some (c :: p.1, p.2)
        | none => none := rfl

/-! ### Elementary lemmas about the scanning primitives -/
theorem leadMatch_append_self (p : List Char) : ∀ r, leadMatch p (p ++ r) = true := by
  induction p with
  | nil => intro r; rfl
  | cons a as ih => intro r; simp [leadMatch, ih]

theorem leadMatch_of_leadMatch_append {p q : List Char} (h : leadMatch p q = true) :
    ∀ r, leadMatch p (q ++ r) = true := by
  induction p generalizing q with
  | nil => intro r; rfl
  | cons a as ih =>
    intro r
    cases q with
    | nil => exact absurd h (by simp [leadMatch])
    | cons b bs =>
      simp only [leadMatch, Bool.and_eq_true, decide_eq_true_eq] at h ⊢
      exact ⟨h.1, ih h.2 r⟩

theorem leadMatch_trans {a b c : List Char} (hab : leadMatch a b = true)
    (hbc : leadMatch b c = true) : leadMatch a c = true := by
  induction a generalizing b c with
  | nil => rfl
  | cons x xs ih =>
    cases b with
    | nil => exact absurd hab (by simp [leadMatch])
    | cons y ys =>
      cases c with
      | nil => exact absurd hbc (by simp [leadMatch])
      | cons z zs =>
        simp only [leadMatch, Bool.and_eq_true, decide_eq_true_eq] at hab hbc ⊢
        exact ⟨hab.1.trans hbc.1, ih hab.2 hbc.2⟩

theorem mismatchWithin_leadMatch {m w : List Char} (h : mismatchWithin m w = true) :
    ∀ r, leadMatch m (w ++ r) = false := by
  induction m generalizing w with
  | nil => exact absurd h (by simp [mismatchWithin])
  | cons a as ih =>
    intro r
    cases w with
    | nil => exact absurd h (by simp [mismatchWithin])
    | cons b bs =>
      simp only [mismatchWithin] at h
      by_cases hab : a = b
      · simp only [if_pos hab] at h
        simp [leadMatch, hab, ih h r]
      · simp [leadMatch, hab]

theorem scanToken_append {m l₁ : List Char} (h : allSuffixMismatch m l₁ = true) :
    ∀ l₂, scanToken m (l₁ ++ l₂) = scanToken m l₂ := by
  induction l₁ with
  | nil => intro l₂; rfl
  | cons c cs ih =>
    intro l₂
    simp only [allSuffixMismatch, Bool.and_eq_true] at h
    have hlm : leadMatch m ((c :: cs) ++ l₂) = false := mismatchWithin_leadMatch h.1 l₂
    simp only [List.cons_append] at hlm ⊢
    rw [scanToken_cons, if_neg (by simp [hlm]), ih h.2 l₂]

theorem scanToken_none_of_ne_head {m₀ : Char} {ms l : List Char}
    (h : ∀ c ∈ l, c ≠ m₀) : scanToken (m₀ :: ms) l = none := by
  induction l with
  | nil => rfl
  | cons c cs ih =>
    have hc : c ≠ m₀ := h c (by simp)
    rw [scanToken_cons, if_neg]
    · exact ih (fun x hx => h x (by simp [hx]))
    · simp only [leadMatch, Bool.and_eq_true, decide_eq_true_eq, not_and]
      intro hh
      exact absurd hh.symm hc

theorem scanToken_at_marker {mc : Char} {ms x : List Char}
    (hx : x.takeWhile isIdChar ≠ []) :
    scanToken (mc :: ms) ((mc :: ms) ++ x) = some (x.takeWhile isIdChar) := by
  have : (mc :: ms) ++ x = mc :: (ms ++ x) := rfl
  rw [this, scanToken_cons, ← this, if_pos (leadMatch_append_self (mc :: ms) x)]
  simp only [List.drop_left]
  rw [if_neg hx]

theorem splitMarker_append {m l₁ : List Char} (h : allSuffixMismatch m l₁ = true) :
    ∀ l₂, splitMarker m (l₁ ++ l₂) =
      (splitMarker m l₂).map (fun p => (l₁ ++ p.1, p.2)) := by
  induction l₁ with
  | nil =>
    intro l₂; cases hs : splitMarker m l₂ <;> simp [hs]
  | cons c cs ih =>
    intro l₂
    simp only [allSuffixMismatch, Bool.and_eq_true] at h
    have hlm : leadMatch m ((c :: cs) ++ l₂) = false := mismatchWithin_leadMatch h.1 l₂
    simp only [List.cons_append] at hlm ⊢
    rw [splitMarker_cons, if_neg (by simp [hlm]), ih h.2 l₂]
    cases hs : splitMarker m l₂ <;> simp [hs]

theorem splitMarker_at_head {mc : Char} {ms r : List Char} :
    splitMarker (mc :: ms) ((mc :: ms) ++ r) = some ([], r) := by
  have h : (mc :: ms) ++ r = mc :: (ms ++ r) := rfl
  rw [h, splitMarker_cons, ← h, if_pos (leadMatch_append_self (mc :: ms) r)]
  simp [List.drop_left]

theorem takeWhile_stop {p : Char → Bool} {a : List Char} {c : Char} (r : List Char)
    (h : ∀ x ∈ a, p x = true) (hc : p c = false) :
    (a ++ c :: r).takeWhile p = a := by
  induction a with
  | nil => simp [List.takeWhile, hc]
  | cons x xs ih =>
    have hx : p x = true := h x (by simp)
    simp only [List.cons_append, List.takeWhile, hx, List.append_eq]
    rw [ih (fun y hy => h y (by simp [hy]))]

theorem dropWhile_stop {p : Char → Bool} {a : List Char} {c : Char} (r : List Char)
    (h : ∀ x ∈ a, p x = true) (hc : p c = false) :
    (a ++ c :: r).dropWhile p = c :: r := by
  induction a with
  | nil => simp [List.dropWhile, hc]
  | cons x xs ih =>
    have hx : p x = true := h x (by simp)
    simp only [List.cons_append, List.dropWhile, hx]
    exact ih (fun y hy => h y (by simp [hy]))

theorem takeWhile_all {p : Char → Bool} {a : List Char}
    (h : ∀ x ∈ a, p x = true) : a.takeWhile p = a := by
  induction a with
  | nil => rfl
  | cons x xs ih =>
    have hx : p x = true := h x (by simp)
    simp only [List.takeWhile, hx]
    rw [ih (fun y hy => h y (by simp [hy]))]

theorem str_data_append (s t : String) : (s ++ t).data = s.data ++ t.data := rfl

theorem lookupSeg_cons (key seg : List Char) (rest : List (List Char)) :
    lookupSeg key (seg :: rest) =
      if segKey seg = key then some (segVal seg) else lookupSeg key rest := rfl

theorem mem_jsReplaceAllChar {x c : Char} {r l : List Char}
    (h : x ∈ jsReplaceAllChar c r l) : x ∈ r ∨ (x ∈ l ∧ x ≠ c) := by
  induction l with
  | nil => exact absurd h (by simp [jsReplaceAllChar])
  | cons y ys ih =>
    simp only [jsReplaceAllChar, List.flatMap_cons, List.mem_append] at h
    rcases h with h | h
    · by_cases hyc : y = c
      · rw [if_pos hyc] at h; exact Or.inl h
      · rw [if_neg hyc] at h
        simp only [List.mem_singleton] at h
        exact Or.inr ⟨by simp [h], by rw [h]; exact hyc⟩
    · rcases ih h with h' | h'
      · exact Or.inl h'
      · exact Or.inr ⟨by simp [h'.1], h'.2⟩

theorem not_mem_jsReplaceAllChar {x c : Char} {r l : List Char}
    (hr : x ∉ r) (hl : x = c ∨ x ∉ l) : x ∉ jsReplaceAllChar c r l := by
  intro hmem
  rcases mem_jsReplaceAllChar hmem with h | h
  · exact hr h
  · rcases hl with h' | h'
    · exact h.2 h'
    · exact h' h.1

/-- Claim C10: for every input, `escapeHtml` returns a string containing
none of the characters lt, gt, double quote, single quote, and every falsy
input (null, undefined, the empty string) yields the empty string.  The
generated slide markup interpolates titles and content strings only
through this function. -/
theorem escapeHtml_no_special_chars (t : Option String) :
    ('<' ∉ (escapeHtml t).data ∧ '>' ∉ (escapeHtml t).data ∧
     '"' ∉ (escapeHtml t).data ∧ '\'' ∉ (escapeHtml t).data) ∧
    escapeHtml none = "" ∧ escapeHtml (some "") = "" := by
  refine ⟨?_, rfl, rfl⟩
  match t with
  | none => simp [escapeHtml]
  | some s =>
    by_cases hs : s = ""
    · simp [escapeHtml, hs]
    · have hdata : (escapeHtml (some s)).data = escapeHtmlL s.data := by
        simp [escapeHtml, hs]
      rw [hdata]
      unfold escapeHtmlL
      refine ⟨?_, ?_, ?_, ?_⟩
      · exact not_mem_jsReplaceAllChar (by decide)
          (Or.inr (not_mem_jsReplaceAllChar (by decide)
            (Or.inr (not_mem_jsReplaceAllChar (by decide)
              (Or.inr (not_mem_jsReplaceAllChar (by decide) (Or.inl rfl)))))))
      · exact not_mem_jsReplaceAllChar (by decide)
          (Or.inr (not_mem_jsReplaceAllChar (by decide)
            (Or.inr (not_mem_jsReplaceAllChar (by decide) (Or.inl rfl)))))
      · exact not_mem_jsReplaceAllChar (by decide)
          (Or.inr (not_mem_jsReplaceAllChar (by decide) (Or.inl rfl)))
      · exact not_mem_jsReplaceAllChar (by decide) (Or.inl rfl)

/-- Claim C6: a buffer whose first four bytes are the PNG signature
validates as an image and is rejected as a video. -/
theorem validateFileType_png_signature (rest : List Nat) :
    validateFileType (0x89 :: 0x50 :: 0x4E :: 0x47 :: rest) "image" = true ∧
    validateFileType (0x89 :: 0x50 :: 0x4E :: 0x47 :: rest) "video" = false := by
  have hlen : ¬((0x89 :: 0x50 :: 0x4E :: 0x47 :: rest).length < 4) := by
    simp only [List.length_cons]
    omega
  have hpng : bytesAt (0x89 :: 0x50 :: 0x4E :: 0x47 :: rest) 0 [0x89, 0x50, 0x4E, 0x47] = true := by
    simp [bytesAt]
  constructor
  · unfold validateFileType
    rw [if_neg hlen, if_neg (by decide : ¬(("image" : String) = "video")), if_pos rfl,
      if_pos (by simp [hpng])]
  · unfold validateFileType
    rw [if_neg hlen, if_pos rfl, if_pos hpng]

/-- Counterexample to claim C7 as stated: this buffer has `ftyp` at byte
offsets 4-7, yet video validation rejects it, because the PNG-signature
check takes precedence. -/
theorem validateFileType_ftyp_counterexample :
    (([0x89, 0x50, 0x4E, 0x47, 0x66, 0x74, 0x79, 0x70] : List Nat).drop 4).take 4 =
      [0x66, 0x74, 0x79, 0x70] ∧
    validateFileType [0x89, 0x50, 0x4E, 0x47, 0x66, 0x74, 0x79, 0x70] "video" = false := by
  decide

/-- Claim C7, amended: a buffer with `ftyp` at offsets 4-7 passes video
validation provided its first four bytes are not the PNG signature and its
decoded 100-byte text prefix contains neither a doctype declaration nor an
html tag (the two false-positive rejections that run first). -/
theorem validateFileType_ftyp_video (b0 b1 b2 b3 : Nat) (rest : List Nat)
    (hpng : bytesAt (b0 :: b1 :: b2 :: b3 :: 0x66 :: 0x74 :: 0x79 :: 0x70 :: rest)
      0 [0x89, 0x50, 0x4E, 0x47] = false)
    (hdoc : hasSubstr "<!doctype".data
      (toLowerL (decodeBytes ((b0 :: b1 :: b2 :: b3 :: 0x66 :: 0x74 :: 0x79 :: 0x70 :: rest).take 100))) = false)
    (hhtml : hasSubstr "<html".data
      (toLowerL (decodeBytes ((b0 :: b1 :: b2 :: b3 :: 0x66 :: 0x74 :: 0x79 :: 0x70 :: rest).take 100))) = false) :
    validateFileType (b0 :: b1 :: b2 :: b3 :: 0x66 :: 0x74 :: 0x79 :: 0x70 :: rest) "video" = true := by
  unfold validateFileType
  rw [if_neg (by simp only [List.length_cons]; omega)]
  rw [if_pos rfl]
  rw [if_neg (by rw [hpng]; exact Bool.false_ne_true)]
  rw [if_neg (by rw [hdoc, hhtml]; simp)]
  rw [if_pos]
  simp only [Bool.and_eq_true, decide_eq_true_eq]
  refine ⟨by simp only [List.length_cons]; omega, ?_⟩
  simp [bytesAt]

/-- Witness for `validateFileType_ftyp_video` at a concrete MP4-style
buffer (4-byte box size, then `ftyp`). -/
theorem validateFileType_ftyp_video_witness :
    validateFileType [0x00, 0x00, 0x00, 0x18, 0x66, 0x74, 0x79, 0x70] "video" = true :=
  validateFileType_ftyp_video 0x00 0x00 0x00 0x18 [] (by decide) (by decide) (by decide)

/-! ### Facts about one ladder attempt -/
theorem gdAttempt_fst (env : Env) (url kind : String) (st : GDState) :
    (gdAttempt env url kind st).1 = gdOk env url kind := by
  cases h : env.direct url true with
  | ok b =>
    by_cases hl : 1000 < b.length
    · by_cases hv : validateFileType b kind = true
      · simp [gdAttempt, requestDirect, gdOk, h, hl, hv]
      · simp [gdAttempt, requestDirect, gdOk, h, hl, hv]
    · simp [gdAttempt, requestDirect, gdOk, h, hl]
  | httpErr => simp [gdAttempt, requestDirect, gdOk, h]
  | streamErr => simp [gdAttempt, requestDirect, gdOk, h]

theorem gdAttempt_trace (env : Env) (url kind : String) (st : GDState) :
    (gdAttempt env url kind st).2.trace = st.trace ++ [url] := by
  cases h : env.direct url true with
  | ok b =>
    by_cases hl : 1000 < b.length
    · by_cases hv : validateFileType b kind = true
      · simp [gdAttempt, requestDirect, h, hl, hv]
      · simp [gdAttempt, requestDirect, h, hl, hv]
    · simp [gdAttempt, requestDirect, h, hl]
  | httpErr => simp [gdAttempt, requestDirect, h]
  | streamErr => simp [gdAttempt, requestDirect, h]

theorem gdAttempt_fs_ok (env : Env) (url kind : String) (st : GDState)
    (h : gdOk env url kind = true) :
    ∃ b, (gdAttempt env url kind st).2.fs = some b ∧ 1000 < b.length ∧
      validateFileType b kind = true := by
  cases hd : env.direct url true with
  | ok b =>
    simp only [gdOk, hd, Bool.and_eq_true, decide_eq_true_eq] at h
    exact ⟨b, by simp [gdAttempt, requestDirect, hd, h.1, h.2], h.1, h.2⟩
  | httpErr => simp [gdOk, hd] at h
  | streamErr => simp [gdOk, hd] at h

theorem gdAttempt_fs_small (env : Env) (url kind : String) (st : GDState)
    (h : gdOk env url kind = false) (hst : smallFile st.fs) :
    smallFile (gdAttempt env url kind st).2.fs := by
  cases hd : env.direct url true with
  | ok b =>
    simp only [gdOk, hd] at h
    by_cases hl : 1000 < b.length
    · by_cases hv : validateFileType b kind = true
      · simp [hl, hv] at h
      · left; simp [gdAttempt, requestDirect, hd, hl, hv]
    · right
      exact ⟨b, by simp [gdAttempt, requestDirect, hd, hl], by omega⟩
  | httpErr => simpa [gdAttempt, requestDirect, hd] using hst
  | streamErr => left; simp [gdAttempt, requestDirect, hd]

theorem gdConfirmT_success {env : Env} {fileId kind : String} {st : GDState}
    (h : (gdConfirmT env fileId kind st).1 = some ()) :
    ∃ b, (gdConfirmT env fileId kind st).2.fs = some b ∧ 1000 < b.length ∧
      validateFileType b kind = true := by
  have hf := gdAttempt_fst env (gdConfirmTUrl fileId) kind st
  rcases hA : gdAttempt env (gdConfirmTUrl fileId) kind st with ⟨ok, st1⟩
  rw [hA] at hf
  cases ok with
  | false => simp [gdConfirmT, hA] at h
  | true =>
    obtain ⟨b, hb, h1, h2⟩ := gdAttempt_fs_ok env (gdConfirmTUrl fileId) kind st hf.symm
    rw [hA] at hb
    exact ⟨b, by simpa [gdConfirmT, hA] using hb, h1, h2⟩

theorem gdConfirmT_fs_small {env : Env} {fileId kind : String} {st : GDState}
    (hst : smallFile st.fs) (h : (gdConfirmT env fileId kind st).1 = none) :
    smallFile (gdConfirmT env fileId kind st).2.fs := by
  have hf := gdAttempt_fst env (gdConfirmTUrl fileId) kind st
  rcases hA : gdAttempt env (gdConfirmTUrl fileId) kind st with ⟨ok, st1⟩
  rw [hA] at hf
  cases ok with
  | true => simp [gdConfirmT, hA] at h
  | false =>
    have := gdAttempt_fs_small env (gdConfirmTUrl fileId) kind st hf.symm hst
    rw [hA] at this
    simpa [gdConfirmT, hA] using this

theorem gdConfirmT_trace (env : Env) (fileId kind : String) (st : GDState) :
    (gdConfirmT env fileId kind st).2.trace = st.trace ++ [gdConfirmTUrl fileId] := by
  have ht := gdAttempt_trace env (gdConfirmTUrl fileId) kind st
  rcases hA : gdAttempt env (gdConfirmTUrl fileId) kind st with ⟨ok, st1⟩
  rw [hA] at ht
  cases ok <;> simpa [gdConfirmT, hA] using ht

/-- Claim C1, amended: every success of the Google-Drive token-parsing
strategy ladder (`downloadGoogleDriveFile`) leaves at the output path a
file of more than 1000 bytes that passed magic-byte validation for the
requested kind.  (The claim as stated, over all success paths of
`downloadFile` and `downloadImage`, is refuted by
`downloadImage_success_without_validation`: the view-URL and
`downloadImage` strategies check only the size threshold.) -/
theorem downloadGoogleDriveFile_success_validated (env : Env) (fileId : String)
    (isVideo : Bool) (st : GDState)
    (h : (downloadGoogleDriveFile env fileId isVideo st).1 = some ()) :
    ∃ b, (downloadGoogleDriveFile env fileId isVideo st).2.fs = some b ∧
      1000 < b.length ∧ validateFileType b (kindOf isVideo) = true := by
  have hf1 := gdAttempt_fst env (gdDownloadUrl fileId) (kindOf isVideo) st
  rcases hA1 : gdAttempt env (gdDownloadUrl fileId) (kindOf isVideo) st with ⟨ok1, st1⟩
  rw [hA1] at hf1
  cases ok1 with
  | true =>
    obtain ⟨b, hb, h1, h2⟩ := gdAttempt_fs_ok env (gdDownloadUrl fileId)
      (kindOf isVideo) st hf1.symm
    rw [hA1] at hb
    exact ⟨b, by simpa [downloadGoogleDriveFile, hA1] using hb, h1, h2⟩
  | false =>
    simp only [downloadGoogleDriveFile, hA1] at h ⊢
    cases hF : env.fetchR (gdDownloadUrl fileId) with
    | none => simp [hF] at h
    | some resp =>
      simp only [hF] at h ⊢
      by_cases hH : isHtmlResp resp = true
      · simp only [hH, if_true] at h ⊢
        cases hT : confirmTokenOf resp.body with
        | none =>
          simp only [hT] at h ⊢
          exact gdConfirmT_success h
        | some tok =>
          simp only [hT] at h ⊢
          have hf2 := gdAttempt_fst env (gdTokenUrl fileId tok) (kindOf isVideo)
            ⟨st1.fs, st1.trace ++ [gdDownloadUrl fileId]⟩
          rcases hA2 : gdAttempt env (gdTokenUrl fileId tok) (kindOf isVideo)
            ⟨st1.fs, st1.trace ++ [gdDownloadUrl fileId]⟩ with ⟨ok2, st3⟩
          rw [hA2] at hf2
          cases ok2 with
          | true =>
            obtain ⟨b, hb, h1, h2⟩ := gdAttempt_fs_ok env (gdTokenUrl fileId tok)
              (kindOf isVideo) ⟨st1.fs, st1.trace ++ [gdDownloadUrl fileId]⟩ hf2.symm
            rw [hA2] at hb
            exact ⟨b, by simpa [hA2] using hb, h1, h2⟩
          | false =>
            simp only [hA2] at h ⊢
            exact gdConfirmT_success h
      · simp only [if_neg hH] at h ⊢
        by_cases hL : 1000 < resp.body.length
        · by_cases hV : validateFileType resp.body (kindOf isVideo) = true
          · exact ⟨resp.body, by simp [hL, hV], hL, hV⟩
          · simp [hL, hV] at h
        · simp [hL] at h

theorem downloadGoogleDriveFile_success_validated_witness :
    ∃ b, (downloadGoogleDriveFile envHappy "F1" false initSt).2.fs = some b ∧
      1000 < b.length ∧ validateFileType b (kindOf false) = true :=
  downloadGoogleDriveFile_success_validated envHappy "F1" false initSt (by decide)

/-- Claim C2, amended: when the Google-Drive strategy ladder fails, no
file that passed the large-file threshold but flunked validation remains
at the output path — every such file is deleted before the next strategy
and before failure is returned; at most a small (at most 1000 byte)
leftover can remain.  (The claim as stated is refuted by
`downloadFile_leaves_invalid_file`: in the generic-URL branch an invalid
downloaded file is left behind.) -/
theorem downloadGoogleDriveFile_fail_no_invalid_file (env : Env) (fileId : String)
    (isVideo : Bool) (st : GDState) (hst : smallFile st.fs)
    (h : (downloadGoogleDriveFile env fileId isVideo st).1 = none) :
    smallFile (downloadGoogleDriveFile env fileId isVideo st).2.fs := by
  have hf1 := gdAttempt_fst env (gdDownloadUrl fileId) (kindOf isVideo) st
  rcases hA1 : gdAttempt env (gdDownloadUrl fileId) (kindOf isVideo) st with ⟨ok1, st1⟩
  rw [hA1] at hf1
  cases ok1 with
  | true => simp [downloadGoogleDriveFile, hA1] at h
  | false =>
    have hsm1 : smallFile st1.fs := by
      have := gdAttempt_fs_small env (gdDownloadUrl fileId) (kindOf isVideo) st hf1.symm hst
      rwa [hA1] at this
    simp only [downloadGoogleDriveFile, hA1] at h ⊢
    cases hF : env.fetchR (gdDownloadUrl fileId) with
    | none => simpa [hF] using hsm1
    | some resp =>
      simp only [hF] at h ⊢
      by_cases hH : isHtmlResp resp = true
      · simp only [hH, if_true] at h ⊢
        cases hT : confirmTokenOf resp.body with
        | none =>
          simp only [hT] at h ⊢
          exact gdConfirmT_fs_small hsm1 h
        | some tok =>
          simp only [hT] at h ⊢
          have hf2 := gdAttempt_fst env (gdTokenUrl fileId tok) (kindOf isVideo)
            ⟨st1.fs, st1.trace ++ [gdDownloadUrl fileId]⟩
          rcases hA2 : gdAttempt env (gdTokenUrl fileId tok) (kindOf isVideo)
            ⟨st1.fs, st1.trace ++ [gdDownloadUrl fileId]⟩ with ⟨ok2, st3⟩
          rw [hA2] at hf2
          cases ok2 with
          | true => simp [hA2] at h
          | false =>
            simp only [hA2] at h ⊢
            have hsm3 : smallFile st3.fs := by
              have := gdAttempt_fs_small env (gdTokenUrl fileId tok) (kindOf isVideo)
                ⟨st1.fs, st1.trace ++ [gdDownloadUrl fileId]⟩ hf2.symm hsm1
              rwa [hA2] at this
            exact gdConfirmT_fs_small hsm3 h
      · simp only [if_neg hH] at h ⊢
        by_cases hL : 1000 < resp.body.length
        · by_cases hV : validateFileType resp.body (kindOf isVideo) = true
          · simp [hL, hV] at h
          · left; simp [hL, hV]
        · simpa [hL] using hsm1

theorem downloadGoogleDriveFile_fail_no_invalid_file_witness :
    smallFile (downloadGoogleDriveFile envNull "F1" true initSt).2.fs :=
  downloadGoogleDriveFile_fail_no_invalid_file envNull "F1" true initSt
    (Or.inl rfl) (by decide)

theorem downloadFile_leaves_invalid_file :
    (downloadFile envC2 "https://example.com/media/clip.bin" true initSt).1 = none ∧
    (downloadFile envC2 "https://example.com/media/clip.bin" true initSt).2.fs =
      some junkHtml ∧
    0 < junkHtml.length ∧ validateFileType junkHtml "video" = false := by
  decide

/-- Claim C3, amended: when the canonical download attempt does not
succeed and its response is a markup page carrying a confirmation token,
the token URL is requested strictly before any blind `confirm=t` request,
and the blind retry is issued exactly when the token attempt did not
succeed — on token-attempt success the ladder stops without the blind
retry (shown concretely by `downloadGoogleDriveFile_no_blind_after_token_success`). -/
theorem downloadGoogleDriveFile_token_before_blind (env : Env)
    (fileId tok : String) (isVideo : Bool) (resp : HttpResp)
    (h1 : gdOk env (gdDownloadUrl fileId) (kindOf isVideo) = false)
    (hresp : env.fetchR (gdDownloadUrl fileId) = some resp)
    (hhtml : isHtmlResp resp = true)
    (htok : confirmTokenOf resp.body = some tok) :
    (downloadGoogleDriveFile env fileId isVideo initSt).2.trace =
      [gdDownloadUrl fileId, gdDownloadUrl fileId, gdTokenUrl fileId tok] ++
        (if gdOk env (gdTokenUrl fileId tok) (kindOf isVideo) = true then []
         else [gdConfirmTUrl fileId]) := by
  have hf1 := gdAttempt_fst env (gdDownloadUrl fileId) (kindOf isVideo) initSt
  have ht1 := gdAttempt_trace env (gdDownloadUrl fileId) (kindOf isVideo) initSt
  rcases hA1 : gdAttempt env (gdDownloadUrl fileId) (kindOf isVideo) initSt with ⟨ok1, st1⟩
  rw [hA1] at hf1 ht1
  cases ok1 with
  | true => rw [h1] at hf1; exact absurd hf1 (by simp)
  | false =>
    simp only [downloadGoogleDriveFile, hA1, hresp, hhtml, if_true, htok]
    have hf2 := gdAttempt_fst env (gdTokenUrl fileId tok) (kindOf isVideo)
      ⟨st1.fs, st1.trace ++ [gdDownloadUrl fileId]⟩
    have ht2 := gdAttempt_trace env (gdTokenUrl fileId tok) (kindOf isVideo)
      ⟨st1.fs, st1.trace ++ [gdDownloadUrl fileId]⟩
    rcases hA2 : gdAttempt env (gdTokenUrl fileId tok) (kindOf isVideo)
      ⟨st1.fs, st1.trace ++ [gdDownloadUrl fileId]⟩ with ⟨ok2, st3⟩
    rw [hA2] at hf2 ht2
    have ht1' : st1.trace = [gdDownloadUrl fileId] := by simpa [initSt] using ht1
    have ht2' : st3.trace = st1.trace ++ [gdDownloadUrl fileId] ++ [gdTokenUrl fileId tok] := ht2
    cases ok2 with
    | true =>
      rw [if_pos hf2.symm]
      simp only [hA2]
      simp [ht2', ht1']
    | false =>
      rw [if_neg (by rw [← hf2]; simp)]
      simp only [hA2]
      rw [gdConfirmT_trace]
      simp [ht2', ht1']

theorem downloadGoogleDriveFile_token_before_blind_witness :
    (downloadGoogleDriveFile envTokFail "XYZ9" false initSt).2.trace =
      [gdDownloadUrl "XYZ9", gdDownloadUrl "XYZ9", gdTokenUrl "XYZ9" "tok42"] ++
        (if gdOk envTokFail (gdTokenUrl "XYZ9" "tok42") (kindOf false) = true then []
         else [gdConfirmTUrl "XYZ9"]) :=
  downloadGoogleDriveFile_token_before_blind envTokFail "XYZ9" "tok42" false respTok
    (by decide) (by decide) (by decide) (by decide)

theorem downloadGoogleDriveFile_no_blind_after_token_success :
    (downloadGoogleDriveFile envC3 "XYZ9" false initSt).1 = some () ∧
    gdTokenUrl "XYZ9" "abc123" ∈ (downloadGoogleDriveFile envC3 "XYZ9" false initSt).2.trace ∧
    gdConfirmTUrl "XYZ9" ∉ (downloadGoogleDriveFile envC3 "XYZ9" false initSt).2.trace := by
  decide

/-- Claim C8: a fetch whose source URL is empty or blank returns the
skipped (null) outcome immediately: no network request is recorded and
the output path is untouched, for `downloadFile` and `downloadImage`
alike. -/
theorem downloadFile_blank_skips (env : Env) (url : String) (isVideo : Bool)
    (st : GDState) (h : jsTrim url = "") :
    downloadFile env url isVideo st = (none, st) ∧
    downloadImage env url st = (none, st) := by
  constructor
  · unfold downloadFile
    rw [if_pos (Or.inr h)]
  · unfold downloadImage
    rw [if_pos (Or.inr h)]

/-- Witness for `downloadFile_blank_skips` on a whitespace-only URL. -/
theorem downloadFile_blank_skips_witness :
    downloadFile envNull "  " false initSt = (none, initSt) ∧
    downloadImage envNull "  " initSt = (none, initSt) :=
  downloadFile_blank_skips envNull "  " false initSt (by decide)

theorem downloadImage_success_without_validation :
    (downloadImage envC1 "https://drive.google.com/file/d/ABC123/view" initSt).1 = some () ∧
    (downloadImage envC1 "https://drive.google.com/file/d/ABC123/view" initSt).2.fs =
      some junkImage ∧
    1000 < junkImage.length ∧ validateFileType junkImage "image" = false := by
  decide

/-! ## Claim C5: id extraction agrees between the two URL shapes -/
theorem isIdChar_ne {c : Char} (h : isIdChar c = true) :
    c ≠ '/' ∧ c ≠ '&' ∧ c ≠ '=' ∧ c ≠ '#' ∧ c ≠ '?' := by
  refine ⟨?_, ?_, ?_, ?_, ?_⟩ <;> · rintro rfl; exact absurd h (by decide)

theorem str_data_ne_nil {s : String} (h : s ≠ "") : s.data ≠ [] := by
  intro hd
  apply h
  cases s with
  | mk d => cases hd; rfl

theorem splitSegs_no_amp {l : List Char} (hne : l ≠ []) (h : ∀ c ∈ l, ¬ c = '&') :
    splitSegs l = [l] := by
  induction l with
  | nil => exact absurd rfl hne
  | cons c cs ih =>
    have hc : ¬ c = '&' := h c (by simp)
    cases cs with
    | nil => simp [splitSegs, hc]
    | cons c' cs' =>
      have hrec : splitSegs (c' :: cs') = [c' :: cs'] :=
        ih (by simp) (fun x hx => h x (by simp [hx]))
      simp only [splitSegs, List.foldr_cons] at hrec ⊢
      rw [hrec, if_neg hc]

/-- Pattern 1: on the `/file/d/<ID>/view` shape the regex search returns
the identifier. -/
theorem scanToken_path_form (id : String) (hne : id ≠ "")
    (hch : ∀ c ∈ id.data, isIdChar c = true) :
    scanToken "/file/d/".data ("https://drive.google.com/file/d/" ++ id ++ "/view").data =
      some id.data := by
  have hdata : ("https://drive.google.com/file/d/" ++ id ++ "/view").data =
      "https://drive.google.com".data ++ ("/file/d/".data ++ (id.data ++ "/view".data)) := by
    rw [str_data_append, str_data_append]
    have hsplit : "https://drive.google.com/file/d/".data =
        "https://drive.google.com".data ++ "/file/d/".data := by decide
    rw [hsplit]
    simp [List.append_assoc]
  rw [hdata, scanToken_append (by decide)]
  have htw : (id.data ++ "/view".data).takeWhile isIdChar = id.data := by
    have hview : "/view".data = '/' :: "view".data := rfl
    rw [hview]
    exact takeWhile_stop "view".data hch (by decide)
  have hm : "/file/d/".data = '/' :: "file/d/".data := rfl
  rw [hm]
  rw [show ('/' :: "file/d/".data) ++ (id.data ++ "/view".data) =
      ('/' :: "file/d/".data) ++ (id.data ++ "/view".data) from rfl]
  rw [scanToken_at_marker (by rw [htw]; exact str_data_ne_nil hne), htw]

/-- Pattern 1 finds nothing on the `open?id=<ID>` shape. -/
theorem scanToken_query_form_none (id : String)
    (hch : ∀ c ∈ id.data, isIdChar c = true) :
    scanToken "/file/d/".data ("https://drive.google.com/open?id=" ++ id).data = none := by
  have hdata : ("https://drive.google.com/open?id=" ++ id).data =
      "https://drive.google.com/open?id=".data ++ id.data := str_data_append _ _
  rw [hdata, scanToken_append (by decide)]
  have hm : "/file/d/".data = '/' :: "file/d/".data := rfl
  rw [hm]
  exact scanToken_none_of_ne_head (fun c hc => (isIdChar_ne (hch c hc)).1)

/-- Pattern 2: parsing the `open?id=<ID>` shape yields pathname `/open`
and query `id=<ID>`. -/
theorem parseUrl_query_form (id : String)
    (hch : ∀ c ∈ id.data, isIdChar c = true) :
    parseUrl ("https://drive.google.com/open?id=" ++ id) =
      some ⟨"/open".data, "id=".data ++ id.data⟩ := by
  have hdata : ("https://drive.google.com/open?id=" ++ id).data =
      "https".data ++ ("://".data ++ ("drive.google.com/open?id=".data ++ id.data)) := by
    rw [str_data_append]
    have hsplit : "https://drive.google.com/open?id=".data =
        "https".data ++ ("://".data ++ "drive.google.com/open?id=".data) := by decide
    rw [hsplit]
    simp [List.append_assoc]
  have hsm : splitMarker "://".data ("https://drive.google.com/open?id=" ++ id).data =
      some ("https".data, "drive.google.com/open?id=".data ++ id.data) := by
    rw [hdata, splitMarker_append (by decide)]
    have hm : "://".data = ':' :: "//".data := rfl
    rw [hm, splitMarker_at_head]
    rfl
  have hrest : "drive.google.com/open?id=".data ++ id.data =
      "drive.google.com".data ++ ('/' :: ("open?id=".data ++ id.data)) := by
    have : "drive.google.com/open?id=".data =
        "drive.google.com".data ++ ('/' :: "open?id=".data) := by decide
    rw [this]
    simp
  have hhost : ("drive.google.com/open?id=".data ++ id.data).takeWhile
      (fun c => !hostStop c) = "drive.google.com".data := by
    rw [hrest]
    exact takeWhile_stop _ (by decide) (by decide)
  have hafter : ("drive.google.com/open?id=".data ++ id.data).dropWhile
      (fun c => !hostStop c) = '/' :: ("open?id=".data ++ id.data) := by
    rw [hrest]
    exact dropWhile_stop _ (by decide) (by decide)
  have hpathsplit : '/' :: ("open?id=".data ++ id.data) =
      "/open".data ++ ('?' :: ("id=".data ++ id.data)) := by
    have : "open?id=".data = "open".data ++ ('?' :: "id=".data) := by decide
    rw [this]
    simp
  have hpath : ('/' :: ("open?id=".data ++ id.data)).takeWhile
      (fun c => !pathStop c) = "/open".data := by
    rw [hpathsplit]
    exact takeWhile_stop _ (by decide) (by decide)
  have hafterpath : ('/' :: ("open?id=".data ++ id.data)).dropWhile
      (fun c => !pathStop c) = '?' :: ("id=".data ++ id.data) := by
    rw [hpathsplit]
    exact dropWhile_stop _ (by decide) (by decide)
  have hquery : queryOf ('?' :: ("id=".data ++ id.data)) = "id=".data ++ id.data := by
    have hq : queryOf ('?' :: ("id=".data ++ id.data)) =
        ("id=".data ++ id.data).takeWhile (fun c => !decide (c = '#')) := rfl
    rw [hq]
    apply takeWhile_all
    intro c hc
    rcases List.mem_append.mp hc with hc | hc
    · exact (by decide : ∀ c ∈ "id=".data, (!decide (c = '#')) = true) c hc
    · simp [(isIdChar_ne (hch c hc)).2.2.2.1]
  unfold parseUrl
  rw [hsm]
  simp only [hhost, hafter]
  rw [if_neg (by decide)]
  simp only [hpath, hafterpath, hquery]

theorem getParam_id (id : String)
    (hch : ∀ c ∈ id.data, isIdChar c = true) :
    getParam "id".data ("id=".data ++ id.data) = some id.data := by
  have hsegsplit : "id=".data ++ id.data = "id".data ++ ('=' :: id.data) := by
    have : "id=".data = "id".data ++ ['='] := by decide
    rw [this]
    simp
  have hsegs : splitSegs ("id=".data ++ id.data) = ["id=".data ++ id.data] := by
    refine splitSegs_no_amp ?_ ?_
    · simp
    · intro c hc
      rcases List.mem_append.mp hc with hc | hc
      · exact (by decide : ∀ c ∈ "id=".data, ¬ c = '&') c hc
      · simp [(isIdChar_ne (hch c hc)).2.1]
  have hkey : segKey ("id=".data ++ id.data) = "id".data := by
    unfold segKey
    rw [hsegsplit]
    exact takeWhile_stop _ (by decide) (by decide)
  have hval : segVal ("id=".data ++ id.data) = id.data := by
    unfold segVal
    rw [hsegsplit, dropWhile_stop _ (by decide) (by decide)]
    rfl
  unfold getParam
  rw [hsegs, lookupSeg_cons, if_pos hkey, hval]

/-- Claim C5: for every nonempty identifier over `[a-zA-Z0-9_-]`,
`extractGoogleDriveId` returns the same identifier whether the URL
presents it in `/file/d/ID/view` path form or in `open?id=ID` query
form. -/
theorem extractGoogleDriveId_path_query_agree (id : String) (hne : id ≠ "")
    (hch : ∀ c ∈ id.data, isIdChar c = true) :
    extractGoogleDriveId ("https://drive.google.com/file/d/" ++ id ++ "/view") = some id ∧
    extractGoogleDriveId ("https://drive.google.com/open?id=" ++ id) = some id := by
  constructor
  · have hne' : ¬ ("https://drive.google.com/file/d/" ++ id ++ "/view") = "" := by
      intro h
      have hd := congrArg String.data h
      rw [str_data_append, str_data_append] at hd
      simp at hd
    unfold extractGoogleDriveId
    rw [if_neg hne', scanToken_path_form id hne hch]
  · have hne' : ¬ ("https://drive.google.com/open?id=" ++ id) = "" := by
      intro h
      have hd := congrArg String.data h
      rw [str_data_append] at hd
      simp at hd
    have hopen : hasSubstr "open".data ("/open".data) = true := by decide
    unfold extractGoogleDriveId
    rw [if_neg hne', scanToken_query_form_none id hch, parseUrl_query_form id hch]
    simp only [hopen, if_true, getParam_id id hch]
    rw [if_neg (str_data_ne_nil hne)]

/-- Witness for `extractGoogleDriveId_path_query_agree` at `XYZ9`. -/
theorem extractGoogleDriveId_path_query_agree_witness :
    extractGoogleDriveId ("https://drive.google.com/file/d/" ++ "XYZ9" ++ "/view") =
      some "XYZ9" ∧
    extractGoogleDriveId ("https://drive.google.com/open?id=" ++ "XYZ9") = some "XYZ9" :=
  extractGoogleDriveId_path_query_agree "XYZ9" (by decide) (by decide)

theorem length_dropWhile_le {α : Type} (p : α → Bool) (l : List α) :
    (l.dropWhile p).length ≤ l.length := by
  induction l with
  | nil => exact Nat.le_refl _
  | cons a as ih =>
    by_cases h : p a = true
    · simp only [List.dropWhile, h]
      exact ih.trans (Nat.le_succ _)
    · have h' : p a = false := by simpa using h
      simp only [List.dropWhile, h']
      exact Nat.le_refl _

theorem aggregateSlides_cons (s : Slide) (rest : List Slide) :
    aggregateSlides (s :: rest) =
      if isSysReqSlide s then
        processGroup s (rest.takeWhile isSysReqSlide) ++
          aggregateSlides (rest.dropWhile isSysReqSlide)
      else s :: aggregateSlides rest := by
  rw [aggregateSlides]

theorem leadMatch_self (p : List Char) : leadMatch p p = true := by
  have := leadMatch_append_self p []
  rwa [List.append_nil] at this

theorem str_ext {s t : String} (h : s.data = t.data) : s = t := by
  cases s; cases t; cases h; rfl

theorem str_append_assoc (a b c : String) : (a ++ b) ++ c = a ++ (b ++ c) :=
  str_ext (by simp [str_data_append, List.append_assoc])

/-- Arithmetic of the balanced split: with `n = ceil(t / 15)` and
`ips = ceil(t / n)`, there are at least two slides, each chunk is at most
15 items, and `n * ips` covers all `t` items. -/
theorem split_arith (t : Nat) (h : 15 < t) :
    2 ≤ (t + 14) / 15 ∧
    (t + (t + 14) / 15 - 1) / ((t + 14) / 15) ≤ 15 ∧
    t ≤ ((t + 14) / 15) * ((t + (t + 14) / 15 - 1) / ((t + 14) / 15)) := by
  have hn2 : 2 ≤ (t + 14) / 15 := by omega
  have h15 : t ≤ 15 * ((t + 14) / 15) := by omega
  have hn0 : 0 < (t + 14) / 15 := by omega
  refine ⟨hn2, ?_, ?_⟩
  · have hx : t + (t + 14) / 15 - 1 < 16 * ((t + 14) / 15) := by omega
    have := (Nat.div_lt_iff_lt_mul hn0).mpr hx
    omega
  · have hdm := Nat.div_add_mod (t + (t + 14) / 15 - 1) ((t + 14) / 15)
    have hmod : (t + (t + 14) / 15 - 1) % ((t + 14) / 15) < (t + 14) / 15 :=
      Nat.mod_lt _ hn0
    omega

/-- Concatenating the chunks `slice(k * m, (k + 1) * m)` for
`k = 0 .. n - 1` yields the first `n * m` elements. -/
theorem join_chunks {α : Type} (m : Nat) :
    ∀ (n : Nat) (l : List α),
      ((List.range n).map (fun k => (l.drop (k * m)).take m)).flatten = l.take (n * m) := by
  intro n
  induction n with
  | zero => intro l; simp
  | succ n ih =>
    intro l
    rw [List.range_succ_eq_map]
    simp only [List.map_cons, List.map_map, List.flatten_cons, Nat.zero_mul, List.drop_zero]
    have hcomp : ((fun k => (l.drop (k * m)).take m) ∘ Nat.succ) =
        (fun k => (((l.drop m).drop (k * m)).take m)) := by
      funext k
      simp only [Function.comp_apply, List.drop_drop]
      congr 2
      rw [Nat.succ_mul, Nat.mul_comm k m, Nat.add_comm]
    rw [hcomp, ih (l.drop m), ← List.take_add]
    congr 1
    ring

theorem mkSplit_spec (base : Slide) (merged : List ContentItem)
    (h : 15 < merged.length) :
    ((mkSplit base merged).map Slide.content).flatten = merged ∧
    ∀ s ∈ mkSplit base merged, s.content.length ≤ 15 ∧
      ∃ r, s.title.data = "System Requirements (".data ++ r := by
  obtain ⟨hn2, hips15, hcover⟩ := split_arith merged.length h
  constructor
  · unfold mkSplit
    rw [List.map_map]
    rw [show (Slide.content ∘ fun k =>
        ({ base with
           title :=
             if 1 < (merged.length + 14) / 15 then
               "System Requirements (" ++ toString (k + 1) ++ "/"
                 ++ toString ((merged.length + 14) / 15) ++ ")"
             else baseTitle
           content :=
             (merged.drop
               (k * ((merged.length + (merged.length + 14) / 15 - 1)
                 / ((merged.length + 14) / 15)))).take
               ((merged.length + (merged.length + 14) / 15 - 1)
                 / ((merged.length + 14) / 15)) } : Slide)) =
        (fun k => (merged.drop
            (k * ((merged.length + (merged.length + 14) / 15 - 1)
              / ((merged.length + 14) / 15)))).take
            ((merged.length + (merged.length + 14) / 15 - 1)
              / ((merged.length + 14) / 15))) from rfl]
    rw [join_chunks]
    exact List.take_of_length_le hcover
  · intro s hs
    unfold mkSplit at hs
    obtain ⟨k, hkmem, hfk⟩ := List.mem_map.mp hs
    constructor
    · rw [← hfk]
      exact (List.length_take_le _ _).trans hips15
    · rw [← hfk]
      rw [if_pos (by omega : 1 < (merged.length + 14) / 15)]
      refine ⟨(toString (k + 1) ++ ("/"
        ++ (toString ((merged.length + 14) / 15) ++ ")"))).data, ?_⟩
      show ("System Requirements (" ++ toString (k + 1) ++ "/"
        ++ toString ((merged.length + 14) / 15) ++ ")").data = _
      rw [str_append_assoc, str_append_assoc, str_append_assoc, str_data_append]

theorem not_sysreq_of_paren_title {s : Slide}
    (h : ∃ r : List Char, s.title.data = "System Requirements (".data ++ r) :
    isSysReqSlide s = false := by
  obtain ⟨r, hr⟩ := h
  have h1 : leadMatch "System Requirements:".data s.title.data = false := by
    rw [hr]
    exact mismatchWithin_leadMatch (by decide) r
  have h2 : ¬ s.title = "System Requirements" := by
    intro he
    have hd := congrArg String.data he
    rw [hr] at hd
    have hlen := congrArg List.length hd
    simp at hlen
  unfold isSysReqSlide startsWithS
  simp [h1, h2]

theorem fam_of_sysreq {s : Slide} (h : isSysReqSlide s = true) : sysReqFam s = true := by
  unfold isSysReqSlide at h
  unfold sysReqFam startsWithS
  simp only [Bool.and_eq_true, Bool.or_eq_true, decide_eq_true_eq] at h ⊢
  obtain ⟨⟨htype, _⟩, hor⟩ := h
  refine ⟨htype, ?_⟩
  rcases hor with hcolon | heq
  · exact leadMatch_trans (by decide) hcolon
  · rw [heq]
    exact leadMatch_self _

theorem processGroup_bound (head : Slide) (tg : List Slide) :
    ∀ s ∈ processGroup head tg, isSysReqSlide s = true → s.content.length ≤ 15 := by
  intro s hs hsys
  unfold processGroup at hs
  cases hf : (head :: tg).filter isNonTrivial with
  | nil => rw [hf] at hs; simp at hs
  | cons nt0 nts =>
    rw [hf] at hs
    replace hs : s ∈ (if 15 < (((nt0 :: nts).map Slide.content).flatten).length then
        mkSplit head (((nt0 :: nts).map Slide.content).flatten)
      else if nts ≠ [] ∨ (nts = [] ∧ tg ≠ []) then
        [{ head with title := baseTitle,
                     content := ((nt0 :: nts).map Slide.content).flatten }]
      else [{ nt0 with title := baseTitle }]) := hs
    by_cases hlen : 15 < (((nt0 :: nts).map Slide.content).flatten).length
    · rw [if_pos hlen] at hs
      have hspec := (mkSplit_spec head _ hlen).2 s hs
      have hfalse : isSysReqSlide s = false := not_sysreq_of_paren_title hspec.2
      rw [hsys] at hfalse
      exact absurd hfalse (by simp)
    · rw [if_neg hlen] at hs
      by_cases hc : nts ≠ [] ∨ (nts = [] ∧ tg ≠ [])
      · rw [if_pos hc] at hs
        rw [List.mem_singleton] at hs
        subst hs
        simpa using Nat.le_of_not_lt hlen
      · rw [if_neg hc] at hs
        rw [List.mem_singleton] at hs
        subst hs
        push_neg at hc
        have hnts : nts = [] := hc.1
        subst hnts
        simp only [List.map_cons, List.map_nil, List.flatten_cons, List.flatten_nil,
          List.append_nil, List.length_cons] at hlen
        simpa using Nat.le_of_not_lt hlen

theorem processGroup_all_fam {head : Slide} {tg : List Slide}
    (hh : isSysReqSlide head = true)
    (htg : ∀ x ∈ tg, isSysReqSlide x = true) :
    ∀ s ∈ processGroup head tg, sysReqFam s = true := by
  intro s hs
  have htype : head.type = "content_bullets" := by
    unfold isSysReqSlide at hh
    simp only [Bool.and_eq_true, decide_eq_true_eq] at hh
    exact hh.1.1
  unfold processGroup at hs
  cases hf : (head :: tg).filter isNonTrivial with
  | nil => rw [hf] at hs; simp at hs
  | cons nt0 nts =>
    rw [hf] at hs
    replace hs : s ∈ (if 15 < (((nt0 :: nts).map Slide.content).flatten).length then
        mkSplit head (((nt0 :: nts).map Slide.content).flatten)
      else if nts ≠ [] ∨ (nts = [] ∧ tg ≠ []) then
        [{ head with title := baseTitle,
                     content := ((nt0 :: nts).map Slide.content).flatten }]
      else [{ nt0 with title := baseTitle }]) := hs
    by_cases hlen : 15 < (((nt0 :: nts).map Slide.content).flatten).length
    · rw [if_pos hlen] at hs
      obtain ⟨r, hr⟩ := ((mkSplit_spec head _ hlen).2 s hs).2
      have hstype : s.type = "content_bullets" := by
        unfold mkSplit at hs
        obtain ⟨k, _, hfk⟩ := List.mem_map.mp hs
        rw [← hfk]
        exact htype
      unfold sysReqFam startsWithS
      simp only [Bool.and_eq_true, decide_eq_true_eq]
      refine ⟨hstype, ?_⟩
      rw [hr]
      exact leadMatch_of_leadMatch_append (by decide) r
    · rw [if_neg hlen] at hs
      by_cases hc : nts ≠ [] ∨ (nts = [] ∧ tg ≠ [])
      · rw [if_pos hc] at hs
        rw [List.mem_singleton] at hs
        subst hs
        unfold sysReqFam startsWithS baseTitle
        simp only [Bool.and_eq_true, decide_eq_true_eq]
        exact ⟨htype, leadMatch_self _⟩
      · rw [if_neg hc] at hs
        rw [List.mem_singleton] at hs
        subst hs
        have hnt0 : nt0 ∈ (head :: tg).filter isNonTrivial := by rw [hf]; simp
        have hnt0mem : nt0 ∈ head :: tg := List.mem_of_mem_filter hnt0
        have hnt0sys : isSysReqSlide nt0 = true := by
          rcases List.mem_cons.mp hnt0mem with rfl | hmem
          · exact hh
          · exact htg nt0 hmem
        have hnt0type : nt0.type = "content_bullets" := by
          unfold isSysReqSlide at hnt0sys
          simp only [Bool.and_eq_true, decide_eq_true_eq] at hnt0sys
          exact hnt0sys.1.1
        unfold sysReqFam startsWithS baseTitle
        simp only [Bool.and_eq_true, decide_eq_true_eq]
        exact ⟨hnt0type, leadMatch_self _⟩

theorem aggregate_aux :
    ∀ (N : Nat) (slides : List Slide), slides.length ≤ N →
      (∀ s ∈ aggregateSlides slides, isSysReqSlide s = true → s.content.length ≤ 15) ∧
      (aggregateSlides slides).filter (fun s => !sysReqFam s) =
        slides.filter (fun s => !sysReqFam s) := by
  intro N
  induction N with
  | zero =>
    intro slides hlen
    have hnil : slides = [] := by
      cases slides with
      | nil => rfl
      | cons a as => simp at hlen
    subst hnil
    exact ⟨by simp [aggregateSlides], by simp [aggregateSlides]⟩
  | succ N ih =>
    intro slides hlen
    cases slides with
    | nil => exact ⟨by simp [aggregateSlides], by simp [aggregateSlides]⟩
    | cons s rest =>
      rw [aggregateSlides_cons]
      by_cases hsys : isSysReqSlide s = true
      · rw [if_pos hsys]
        have hdrop : (rest.dropWhile isSysReqSlide).length ≤ N := by
          have h1 := length_dropWhile_le isSysReqSlide rest
          simp only [List.length_cons] at hlen
          omega
        obtain ⟨ih1, ih2⟩ := ih _ hdrop
        have htw : ∀ x ∈ rest.takeWhile isSysReqSlide, isSysReqSlide x = true :=
          fun x hx => List.mem_takeWhile_imp hx
        constructor
        · intro x hx hxs
          rcases List.mem_append.mp hx with hx | hx
          · exact processGroup_bound s _ x hx hxs
          · exact ih1 x hx hxs
        · have hnil : (processGroup s (rest.takeWhile isSysReqSlide)).filter
              (fun x => !sysReqFam x) = [] := by
            rw [List.filter_eq_nil_iff]
            intro a ha
            simp [processGroup_all_fam hsys htw a ha]
          have htwnil : (rest.takeWhile isSysReqSlide).filter (fun x => !sysReqFam x) = [] := by
            rw [List.filter_eq_nil_iff]
            intro a ha
            simp [fam_of_sysreq (htw a ha)]
          rw [List.filter_append, hnil, List.nil_append, ih2]
          conv_rhs => rw [show s :: rest =
            s :: (rest.takeWhile isSysReqSlide ++ rest.dropWhile isSysReqSlide) by
              rw [List.takeWhile_append_dropWhile]]
          rw [List.filter_cons_of_neg (by simp [fam_of_sysreq hsys]),
            List.filter_append, htwnil, List.nil_append]
      · rw [if_neg hsys]
        have hrest : rest.length ≤ N := by
          simp only [List.length_cons] at hlen
          omega
        obtain ⟨ih1, ih2⟩ := ih rest hrest
        constructor
        · intro x hx hxs
          rcases List.mem_cons.mp hx with rfl | hx
          · exact absurd hxs hsys
          · exact ih1 x hx hxs
        · simp only [List.filter_cons, ih2]

/-- Claim C9: (1) every System Requirements bullet slide emitted by
`aggregateSlides` has at most 15 content items; (2) slides outside the
System Requirements bullet family pass through unchanged, in their
original relative order; (3) when merged System Requirements content
exceeds 15 items it is split into numbered part slides whose content
arrays, concatenated in order, equal exactly the merged content, each
part holding at most 15 items. -/
theorem aggregateSlides_spec (slides : List Slide) (base : Slide)
    (merged : List ContentItem) :
    (∀ s ∈ aggregateSlides slides, isSysReqSlide s = true → s.content.length ≤ 15) ∧
    (aggregateSlides slides).filter (fun s => !sysReqFam s) =
      slides.filter (fun s => !sysReqFam s) ∧
    (15 < merged.length →
      ((mkSplit base merged).map Slide.content).flatten = merged ∧
      ∀ s ∈ mkSplit base merged, s.content.length ≤ 15 ∧
        leadMatch "System Requirements (".data s.title.data = true) := by
  obtain ⟨h1, h2⟩ := aggregate_aux slides.length slides (Nat.le_refl _)
  refine ⟨h1, h2, ?_⟩
  intro hlen
  obtain ⟨hjoin, hmem⟩ := mkSplit_spec base merged hlen
  refine ⟨hjoin, ?_⟩
  intro s hs
  obtain ⟨hle, r, hr⟩ := hmem s hs
  refine ⟨hle, ?_⟩
  rw [hr]
  exact leadMatch_append_self _ r

/-- Witness for `aggregateSlides_spec`: a single System Requirements
slide passes the pass-through equation, a 16-item merged content splits
losslessly, and the emitted slide respects the 15-item bound. -/
theorem aggregateSlides_nil : aggregateSlides [] = [] := by
  rw [aggregateSlides]

theorem aggregateSlides_spec_witness :
    ((aggregateSlides [slideA]).filter (fun s => !sysReqFam s) =
      [slideA].filter (fun s => !sysReqFam s)) ∧
    ((mkSplit slideA sampleItems).map Slide.content).flatten = sampleItems ∧
    (⟨"content_bullets", "System Requirements",
      [⟨"Camera: IP66", 0⟩, ⟨"Resolution: 1080p", 0⟩], none, none, none, none⟩ :
        Slide).content.length ≤ 15 := by
  have hagg : aggregateSlides [slideA] = processGroup slideA [] := by
    rw [aggregateSlides_cons, if_pos (by decide)]
    simp [aggregateSlides_nil]
  have h := aggregateSlides_spec [slideA] slideA sampleItems
  exact ⟨h.2.1, (h.2.2 (by decide)).1, h.1 _ (by rw [hagg]; decide) (by decide)⟩

theorem moduleMediaStep_attempts (env : MediaEnv) (slide : Slide) (skip : Bool) :
    (moduleMediaStep env slide skip).1 = [] ∨
    ((moduleMediaStep env slide skip).1 =
        [FetchAttempt.video (jsTrim (resolveVideoUrl slide))] ∧
      ¬ jsTrim (resolveVideoUrl slide) = "") ∨
    ((moduleMediaStep env slide skip).1 =
        [FetchAttempt.image (jsTrim (resolveImageUrl slide))] ∧
      jsTrim (resolveVideoUrl slide) = "" ∧
      ¬ jsTrim (resolveImageUrl slide) = "") := by
  unfold moduleMediaStep
  by_cases htype : slide.type = "module_description"
  · rw [if_pos htype]
    by_cases h1 : ¬ jsTrim (resolveVideoUrl slide) = "" ∧ skip = false
    · rw [if_pos h1]
      cases env.videoDl (jsTrim (resolveVideoUrl slide)) with
      | some p =>
        by_cases hval : env.vValid p = true
        · right; left; exact ⟨by simp [hval], h1.1⟩
        · right; left; exact ⟨by simp [hval], h1.1⟩
      | none => right; left; exact ⟨rfl, h1.1⟩
    · rw [if_neg h1]
      by_cases h2 : ¬ jsTrim (resolveVideoUrl slide) = "" ∧ skip = true
      · rw [if_pos h2]; left; rfl
      · rw [if_neg h2]
        have hv : jsTrim (resolveVideoUrl slide) = "" := by
          by_contra hne
          cases skip with
          | false => exact h1 ⟨hne, rfl⟩
          | true => exact h2 ⟨hne, rfl⟩
        by_cases h3 : ¬ jsTrim (resolveImageUrl slide) = ""
        · rw [if_pos h3]
          cases env.imageDl (jsTrim (resolveImageUrl slide)) with
          | some p => right; right; exact ⟨rfl, hv, h3⟩
          | none => right; right; exact ⟨rfl, hv, h3⟩
        · rw [if_neg h3]; left; rfl
  · rw [if_neg htype]; left; rfl

/-- Claim C4: for module-description slides, a non-empty video URL means
only a video fetch is ever attempted and the image URL is never
consulted; an image fetch can occur only when the video URL is empty;
and when both URLs are empty no fetch occurs and no asset-map entry is
recorded (the slide is left for manual insertion). -/
theorem moduleMediaStep_priority (env : MediaEnv) (slide : Slide) (skip : Bool) :
    (¬ jsTrim (resolveVideoUrl slide) = "" →
      ∀ a ∈ (moduleMediaStep env slide skip).1,
        a = FetchAttempt.video (jsTrim (resolveVideoUrl slide))) ∧
    (∀ u, FetchAttempt.image u ∈ (moduleMediaStep env slide skip).1 →
      jsTrim (resolveVideoUrl slide) = "" ∧ u = jsTrim (resolveImageUrl slide)) ∧
    (slide.type = "module_description" →
      jsTrim (resolveVideoUrl slide) = "" →
      jsTrim (resolveImageUrl slide) = "" →
      (moduleMediaStep env slide skip).1 = [] ∧
      (moduleMediaStep env slide skip).2 = none) := by
  refine ⟨?_, ?_, ?_⟩
  · intro hv a ha
    rcases moduleMediaStep_attempts env slide skip with h | ⟨h, _⟩ | ⟨h, hv', _⟩
    · rw [h] at ha; simp at ha
    · rw [h] at ha; simpa using ha
    · exact absurd hv' hv
  · intro u hu
    rcases moduleMediaStep_attempts env slide skip with h | ⟨h, _⟩ | ⟨h, hv', him⟩
    · rw [h] at hu; simp at hu
    · rw [h] at hu; simp at hu
    · rw [h] at hu
      simp only [List.mem_singleton, FetchAttempt.image.injEq] at hu
      exact ⟨hv', hu⟩
  · intro htype hv him
    have hres : moduleMediaStep env slide skip = ([], none) := by
      unfold moduleMediaStep
      rw [if_pos htype, if_neg (by simp [hv]), if_neg (by simp [hv]),
        if_neg (by simp [him])]
    rw [hres]
    exact ⟨rfl, rfl⟩

theorem moduleMediaStep_priority_witness :
    (FetchAttempt.video "https://v.example/clip" =
      FetchAttempt.video (jsTrim (resolveVideoUrl slideVid))) ∧
    ((moduleMediaStep envM slideBlank false).1 = [] ∧
      (moduleMediaStep envM slideBlank false).2 = none) :=
  ⟨(moduleMediaStep_priority envM slideVid false).1 (by decide)
      (FetchAttempt.video "https://v.example/clip") (by decide),
    (moduleMediaStep_priority envM slideBlank false).2.2 rfl (by decide) (by decide)⟩

end SlideGen
